import Mathlib

/-!
Shallow embedding of the Scenic photo-scraper scripts
(src/scripts/flickr_enhanced_scraper.py, flickr_html_scraper.py,
flickr_scraper.py, flickr_api_scraper.py) and proofs about them.

Strings are modelled as Lean `String`s; Python string primitives
(substring test, strip, lower, single-character regex substitution,
slicing, truthiness) are given explicit executable models below.
-/

namespace Scenic

/-- Characters the Python regex class `[a-z]` matches. -/
def isLowerAZ (c : Char) : Bool := 'a' ≤ c && c ≤ 'z'

/-- Characters the Python regex class `[a-zA-Z0-9_-]` matches. -/
def isWordChar (c : Char) : Bool :=
  ('a' ≤ c && c ≤ 'z') || ('A' ≤ c && c ≤ 'Z') || ('0' ≤ c && c ≤ '9')
    || c == '_' || c == '-'

/-- Does `pat` occur at the start of `l`? (model of Python `startswith` on char lists) -/
def beginsWith : List Char → List Char → Bool
  | [], _ => true
  | _ :: _, [] => false
  | p :: ps, c :: cs => p == c && beginsWith ps cs

/-- Does `pat` occur somewhere inside `l`? (model of Python `in` for strings) -/
def listHas (pat : List Char) : List Char → Bool
  | [] => beginsWith pat []
  | c :: cs => beginsWith pat (c :: cs) || listHas pat cs

/-- Python `pat in s` substring test. -/
def strHas (pat s : String) : Bool := listHas pat.data s.data

/-- Python `s.startswith(p)`. -/
def strBeginsWith (p s : String) : Bool := beginsWith p.data s.data

/-- Python `s.replace(' ', '')`: remove every space. -/
def stripSpaces (s : String) : String := ⟨s.data.filter (fun c => c ≠ ' ')⟩

/-- Python `s.replace(a, b)` for single characters. -/
def replaceChar (a b : Char) (s : String) : String :=
  ⟨s.data.map (fun c => if c == a then b else c)⟩

/-- Python whitespace for `str.strip()`. -/
def isPySpace (c : Char) : Bool :=
  c == ' ' || c == '\t' || c == '\n' || c == '\r'

/-- Python `s.strip()`. -/
def pyStrip (s : String) : String :=
  ⟨((s.data.dropWhile isPySpace).reverse.dropWhile isPySpace).reverse⟩

/-- Python `s.lower()` (ASCII case fold, as used on link texts here). -/
def pyLower (s : String) : String := ⟨s.data.map Char.toLower⟩

/-- Python `s.split('|')[0]`. -/
def takeBeforePipe (s : String) : String := ⟨s.data.takeWhile (fun c => c ≠ '|')⟩

/-- Python truthiness of an optional string (`None` and `""` are falsy). -/
def pyTruthy : Option String → Bool
  | none => false
  | some s => s ≠ ""

/-- Python `a or b` on optional strings, normalising falsy values away. -/
def pyOrElse (a b : Option String) : Option String :=
  if pyTruthy a then a else if pyTruthy b then b else none

/-- Python `a or d` where `d` is a (non-empty) default string. -/
def pyOrDefault (a : Option String) (d : String) : String :=
  match a with
  | some s => if s = "" then d else s
  | none => d

/-- Python list slice `l[:n]` for an integer bound `n`
(negative bounds count from the end, clamped at zero). -/
def pySlice (l : List α) (n : Int) : List α :=
  if 0 ≤ n then l.take n.toNat else l.take (l.length - (-n).toNat)

/-!
## Asset-URL size upgrade

`flickr_scraper.py` line 217:
  `img_url = re.sub(r'_[a-z]\.(jpg|png)$', '_b.\\1', img_url)`
`flickr_api_scraper.py` line 95:
  `img_url = re.sub(r'_[a-z]\.jpg$', '_b.jpg', img_url)`
Both regexes are end-anchored and match exactly the last six characters,
so the substitution is modelled by inspecting the reversed character list.
-/

/-- Both variants, on the reversed character list: the reversed string must
start with the reversed extension, then `.`, a `[a-z]` letter, `_`;
the letter becomes `b`.  `png` is accepted only when `withPng` is true. -/
def sizeTokenGo (withPng : Bool) (r : List Char) : List Char :=
  match r with
  | g :: p :: j :: d :: c :: u :: rest =>
      if (g = 'g' ∧ p = 'p' ∧ j = 'j' ∧ d = '.' ∧ u = '_') ∧ isLowerAZ c then
        g :: p :: j :: d :: 'b' :: u :: rest
      else if withPng ∧ (g = 'g' ∧ p = 'n' ∧ j = 'p' ∧ d = '.' ∧ u = '_') ∧ isLowerAZ c then
        g :: p :: j :: d :: 'b' :: u :: rest
      else r
  | _ => r

/-- `re.sub(r'_[a-z]\.(jpg|png)$', '_b.\\1', url)` (`flickr_scraper.py` line 217). -/
def sizeUpgrade (s : String) : String := ⟨(sizeTokenGo true s.data.reverse).reverse⟩

/-- `re.sub(r'_[a-z]\.jpg$', '_b.jpg', url)` (`flickr_api_scraper.py` line 95). -/
def sizeUpgradeJpg (s : String) : String := ⟨(sizeTokenGo false s.data.reverse).reverse⟩

/-!
## License table and normalization (`flickr_scraper.py`)

Lines 44-51 build `self.licenses` (a Python dict, insertion-ordered);
lines 174-183 scan it: the first value `v` with
`v in license_text or v.replace(' ','') in license_text.replace(' ','')`
wins and the loop breaks.
-/

/-- The fixed license table, in dict insertion order. -/
def licenses : List (String × String) :=
  [("4", "CC BY 2.0"),
   ("5", "CC BY-SA 2.0"),
   ("9", "CC0 1.0"),
   ("10", "Public Domain Mark"),
   ("11", "CC BY 4.0"),
   ("12", "CC BY-SA 4.0")]

/-- The matching test applied to one canonical label `v` against the text. -/
def licMatches (v text : String) : Bool :=
  strHas v text || strHas (stripSpaces v) (stripSpaces text)

/-- The scan of `flickr_scraper.py` lines 180-183: first matching value wins. -/
def licLoop : List (String × String) → String → Option String
  | [], _ => none
  | (_, v) :: rest, text =>
      if licMatches v text then some v else licLoop rest text

/-- License normalization as performed in `get_photo_details`. -/
def normalizeLicense (text : String) : Option String := licLoop licenses text

/-!
## Candidate Lister (`extract_photos_from_html`)

`flickr_enhanced_scraper.py` lines 50-77 and `flickr_html_scraper.py`
lines 38-63: `re.findall(r'https://www\.flickr\.com/photos/([^/]+)/(\d{8,})', html)`
yields `(username, photo_id)` pairs in document order; a `seen` set removes
duplicate ids keeping the first occurrence; the enhanced variant then
truncates with `photos[:self.max_photos]` only when `self.max_photos` is truthy.
We model the regex-match list as the input.
-/

/-- A `PhotoReference` as built by the listing loop. -/
structure Photo where
  id : String
  username : String
  url : String
deriving DecidableEq

/-- The dedup loop with its `seen` set (`flickr_enhanced_scraper.py` lines 62-71). -/
def dedupLoop (seen : List String) : List (String × String) → List Photo
  | [] => []
  | (username, photoId) :: rest =>
      if photoId ∈ seen then dedupLoop seen rest
      else { id := photoId, username := username,
             url := "https://www.flickr.com/photos/" ++ username ++ "/" ++ photoId }
           :: dedupLoop (seen ++ [photoId]) rest

/-- The full deduplicated candidate list (before any truncation). -/
def dedupPhotos (ms : List (String × String)) : List Photo := dedupLoop [] ms

/-- Python truthiness of the `max_photos` value (`None` and `0` are falsy). -/
def maxTruthy : Option Int → Bool
  | none => false
  | some n => n ≠ 0

/-- `extract_photos_from_html` of the enhanced scraper (lines 50-77):
dedup, then `photos[:max_photos]` only when `max_photos` is truthy. -/
def extractPhotos (ms : List (String × String)) (maxPhotos : Option Int) :
    List Photo :=
  let photos := dedupPhotos ms
  match maxPhotos with
  | some n => if n ≠ 0 then pySlice photos n else photos
  | none => photos

/-- Modelled from the spec (claim C1's wording, for comparison with the code):
keep each id's first occurrence, in order of first occurrence. -/
def firstOccurrence : List String → List String
  | [] => []
  | a :: l => a :: firstOccurrence (l.filter (fun x => x ≠ a))
termination_by l => l.length
decreasing_by
  simp only [List.length_cons]
  exact Nat.lt_succ_of_le (List.length_filter_le _ _)

/-!
## Filenames

`flickr_enhanced_scraper.py` lines 263-265:
  `clean_username = re.sub(r'[^a-zA-Z0-9_-]', '_', username)`
  `filename = f"flickr_{photo_id}_{clean_username}.jpg"`
`flickr_api_scraper.py` lines 124-125: identical sanitization of the
photographer name. `flickr_scraper.py` line 250:
  `filename = f"flickr_{photo_id}_{photo_details['photographer'].replace(' ', '_')}.{ext}"`
with `ext = 'png' if '.png' in img_url else 'jpg'` (lines 246-248).
-/

/-- `re.sub(r'[^a-zA-Z0-9_-]', '_', s)`: the class matches single characters,
so the substitution is a character map. -/
def sanitizeHandle (s : String) : String :=
  ⟨s.data.map (fun c => if isWordChar c then c else '_')⟩

/-- Filename built by the enhanced scraper (lines 263-265). -/
def enhancedFilename (photoId username : String) : String :=
  "flickr_" ++ photoId ++ "_" ++ sanitizeHandle username ++ ".jpg"

/-- Filename built by the API scraper (lines 124-125). -/
def apiFilename (photoId photographer : String) : String :=
  "flickr_" ++ photoId ++ "_" ++ sanitizeHandle photographer ++ ".jpg"

/-- Extension choice of the basic scraper (lines 246-248). -/
def basicExt (imgUrl : String) : String := if strHas ".png" imgUrl then "png" else "jpg"

/-- Filename built by the basic scraper (line 250): only spaces replaced. -/
def basicFilename (photoId photographer imgUrl : String) : String :=
  "flickr_" ++ photoId ++ "_" ++ replaceChar ' ' '_' photographer ++ "." ++ basicExt imgUrl

/-!
## Metadata Resolver (`EnhancedFlickrScraper.get_photo_metadata`)

Lines 79-210. The whole body sits in a `try`, with `except: return None`;
networking (`session.get` + `raise_for_status`) either raises or yields the
page. Generic HTML-tree traversal (BeautifulSoup) is an external
collaborator, so a fetched page is modelled by the raw values each lookup
would return: an element's stripped text when the element exists, an
attribute's content when the tag exists.
-/

/-- A fetched photo page, as seen by the resolver's lookups. -/
structure MetaPage where
  /-- text of `h1.photo-title` when present -/
  h1Title : Option String
  /-- `content` of `meta[property=og:title]` when present -/
  ogTitle : Option String
deriving DecidableEq

/-- The title cascade of lines 101-111: `h1.photo-title`, else
`og:title` content split at `|` and stripped, else `"Untitled"`;
a falsy result is replaced by `Photo_<id>`. -/
def resolveTitle (photoId : String) (page : MetaPage) : String :=
  let t :=
    match page.h1Title with
    | some s => s
    | none =>
        match page.ogTitle with
        | some c => pyStrip (takeBeforePipe c)
        | none => "Untitled"
  if t = "" then "Photo_" ++ photoId else t

/-- The resolved metadata record (the fields later claims read). -/
structure Meta where
  photoId : String
  username : String
  title : String
deriving DecidableEq

/-- `get_photo_metadata`: on a fetch exception the `except` branch returns
`None` (a sentinel, never a raised error); on success the field cascades run. -/
def getPhotoMetadata (p : Photo) (fetched : Except Unit MetaPage) : Option Meta :=
  match fetched with
  | Except.error _ => none
  | Except.ok page =>
      some { photoId := p.id, username := p.username,
             title := resolveTitle p.id page }

/-!
## Download Executor and Ledger (`EnhancedFlickrScraper`)

`download_photo_with_metadata` (lines 212-324) first fetches the sizes
page, scans its anchors for a download link (lines 232-244), falls back to
the displayed image (lines 246-254), and only then computes the filename
and checks the photos directory (lines 263-282). The ledger
(`self.metadata`, persisted as `metadata.json`) is appended to either in
the file-exists branch (guarded by `photo_id not in existing_ids`) or
unconditionally after a fresh download.
-/

/-- An anchor on the sizes page: `href` and its stripped text. -/
structure Link where
  href : String
  text : String
deriving DecidableEq

/-- Lines 233-244: first anchor whose lowered text contains `download` or
`original` and whose href starts with `//` (prefixed `https:`) or `http`. -/
def findDownloadUrl : List Link → Option String
  | [] => none
  | l :: rest =>
      if strHas "download" (pyLower l.text) || strHas "original" (pyLower l.text) then
        if strBeginsWith "//" l.href then some ("https:" ++ l.href)
        else if strBeginsWith "http" l.href then some l.href
        else findDownloadUrl rest
      else findDownloadUrl rest

/-- A fetched sizes page: its anchors and the `src` of the image inside
`div#allsizes-photo` when that image exists with a truthy `src`. -/
structure SizesPage where
  links : List Link
  allsizesImg : Option String
deriving DecidableEq

/-- Lines 246-254: displayed-image fallback, `//`-prefix normalisation. -/
def fallbackImageUrl (page : SizesPage) : Option String :=
  match page.allsizesImg with
  | some s =>
      if s ≠ "" then some (if strBeginsWith "//" s then "https:" ++ s else s)
      else none
  | none => none

/-- One ledger record (`metadata.json` entry), keyed by `photo_id`. -/
structure Rec where
  photoId : String
  filename : String
deriving DecidableEq

/-- Ids present in the ledger (`existing_ids`, line 272). -/
def ledgerIds (ledger : List Rec) : List String := ledger.map Rec.photoId

/-- Orchestrator state: photo files on disk, the ledger, the failure list. -/
structure RunState where
  files : List String
  ledger : List Rec
  failed : List String
deriving DecidableEq

deriving instance DecidableEq for Except

/-- Environment for one item: outcome of the metadata-page fetch, of the
sizes-page fetch, and of the image fetch (`Except.error` = exception). -/
structure ItemEnv where
  meta : Except Unit MetaPage
  sizes : Except Unit SizesPage
  image : Except Unit Nat
deriving DecidableEq

/-- Lines 228-256: the download-link scan, then (only if it found nothing)
the displayed-image fallback; `final_url = download_url or image_url`. -/
def locateAssetUrl (page : SizesPage) : Option String :=
  let downloadUrl := findDownloadUrl page.links
  let imageUrl := if downloadUrl.isNone then fallbackImageUrl page else none
  pyOrElse downloadUrl imageUrl

/-- The sizes-page URL (line 220). -/
def sizesUrl (p : Photo) : String :=
  "https://www.flickr.com/photos/" ++ p.username ++ "/" ++ p.id ++ "/sizes/"

/-- Result of one download attempt: reported success, new state, and the
list of URLs fetched over the network (in order). -/
structure StepOut where
  success : Bool
  st : RunState
  netTrace : List String
deriving DecidableEq

/-- `download_photo_with_metadata` (lines 212-324). -/
def downloadPhotoWithMetadata (st : RunState) (p : Photo) (md : Meta)
    (env : ItemEnv) : StepOut :=
  match env.sizes with
  | Except.error _ =>
      { success := false,
        st := { st with failed := st.failed ++ [p.id] },
        netTrace := [sizesUrl p] }
  | Except.ok page =>
      match locateAssetUrl page with
      | none =>
          { success := false,
            st := { st with failed := st.failed ++ [p.id] },
            netTrace := [sizesUrl p] }
      | some finalUrl =>
          let filename := enhancedFilename p.id p.username
          if filename ∈ st.files then
            if md.photoId ∈ ledgerIds st.ledger then
              { success := true, st := st, netTrace := [sizesUrl p] }
            else
              { success := true,
                st := { st with
                          ledger := st.ledger ++ [{ photoId := md.photoId,
                                                    filename := filename }] },
                netTrace := [sizesUrl p] }
          else
            match env.image with
            | Except.error _ =>
                { success := false,
                  st := { st with failed := st.failed ++ [p.id] },
                  netTrace := [sizesUrl p, finalUrl] }
            | Except.ok _ =>
                { success := true,
                  st := { st with
                            files := st.files ++ [filename],
                            ledger := st.ledger ++ [{ photoId := md.photoId,
                                                      filename := filename }] },
                  netTrace := [sizesUrl p, finalUrl] }

/-- One candidate plus its network environment. -/
structure Item where
  photo : Photo
  env : ItemEnv
deriving DecidableEq

/-- One iteration of the `scrape` loop (lines 346-360): unresolved metadata
records the id as failed and the run continues; otherwise the download runs. -/
def processItem (st : RunState) (it : Item) : RunState :=
  match getPhotoMetadata it.photo it.env.meta with
  | none => { st with failed := st.failed ++ [it.photo.id] }
  | some md => (downloadPhotoWithMetadata st it.photo md it.env).st

/-- A whole run over a candidate list. -/
def runItems (items : List Item) (st : RunState) : RunState :=
  items.foldl processItem st

/-- A sequence of runs over the same output directory: files and the
ledger persist (`metadata.json` is reloaded in `__init__`, lines 31-38);
the failure list is reset each run (line 48). -/
def runSeq (runs : List (List Item)) (files : List String) (ledger : List Rec) :
    List String × List Rec :=
  match runs with
  | [] => (files, ledger)
  | r :: rest =>
      let st := runItems r { files := files, ledger := ledger, failed := [] }
      runSeq rest st.files st.ledger

/-!
## Basic scraper (`FlickrScraper.get_photo_details` / `download_photo`)

Lines 133-234 and 236-292 of `flickr_scraper.py`. The whole of
`get_photo_details` sits in a `try` whose `except` returns `None`.
-/

/-- A fetched photo detail page, as seen by the lookups of
`get_photo_details` (element/attribute values when present). -/
structure DetailPage where
  /-- text of `a.owner-name` when that element exists -/
  ownerName : Option String
  /-- text of `span.username` when that element exists -/
  usernameSpan : Option String
  /-- text of `h1.photo-title` when present -/
  h1Title : Option String
  /-- `content` of `meta[property=og:title]` (`get('content','')`) -/
  ogTitle : Option String
  /-- text of `div.photo-desc` when present -/
  photoDesc : Option String
  /-- text of the `creativecommons` link when present -/
  ccLinkText : Option String
  /-- `href` of the `data-track` download link when found -/
  downloadHref : Option String
  /-- first `"secret":"..."` hit in the page source -/
  secret : Option String
  /-- does `img.main-photo` exist? -/
  mainPhotoPresent : Bool
  /-- its `src` attribute (may be absent) -/
  mainPhotoSrc : Option String
  /-- `content` of `meta[property=og:image]` -/
  ogImage : Option String
deriving DecidableEq

/-- The dictionary returned by `get_photo_details` (lines 221-230). -/
structure Details where
  id : String
  url : String
  title : String
  photographer : String
  description : Option String
  license : String
  downloadUrl : Option String
  imageUrl : Option String
deriving DecidableEq

/-- `get_photo_details` (lines 133-234): `None` on a fetch exception,
otherwise every field resolved by its cascade. -/
def getPhotoDetails (photoId photoUrl : String) (fetched : Except Unit DetailPage) :
    Option Details :=
  match fetched with
  | Except.error _ => none
  | Except.ok pg =>
      let photographer :=
        match pg.ownerName with
        | some t => some t
        | none => pg.usernameSpan
      let title :=
        match pg.h1Title with
        | some t => some t
        | none =>
            match pg.ogTitle with
            | some c => some (pyStrip (takeBeforePipe c))
            | none => none
      let licenseInfo :=
        match pg.ccLinkText with
        | some t => normalizeLicense t
        | none => none
      let downloadUrl :=
        if pyTruthy pg.downloadHref then pg.downloadHref
        else pg.secret.map (fun s =>
          "/photo_download.gne?id=" ++ photoId ++ "&secret=" ++ s
            ++ "&size=o&source=photoPageEngagement")
      let imgRaw := if pg.mainPhotoPresent then pg.mainPhotoSrc else pg.ogImage
      let imageUrl :=
        match imgRaw with
        | none => none
        | some u =>
            if u = "" then some u
            else
              let u' := sizeUpgrade u
              some (if strBeginsWith "http" u' then u' else "https:" ++ u')
      some { id := photoId, url := photoUrl,
             title := pyOrDefault title ("Untitled_" ++ photoId),
             photographer := pyOrDefault photographer "Unknown",
             description := pg.photoDesc,
             license := pyOrDefault licenseInfo "CC (Commercial Use)",
             downloadUrl := downloadUrl,
             imageUrl := imageUrl }

/-- Result of the basic scraper's `download_photo`. -/
structure BasicOut where
  success : Bool
  files : List String
  ledger : List Rec
  netTrace : List String
deriving DecidableEq

/-- `FlickrScraper.download_photo` (lines 236-292): filename computed and
checked before any network call; the attribution list plays the ledger. -/
def basicDownloadPhoto (files : List String) (attribution : List Rec)
    (details : Option Details) (env : Except Unit Nat) : BasicOut :=
  match details with
  | none => { success := false, files := files, ledger := attribution, netTrace := [] }
  | some d =>
      match d.imageUrl with
      | none => { success := false, files := files, ledger := attribution, netTrace := [] }
      | some img =>
          if img = "" then
            { success := false, files := files, ledger := attribution, netTrace := [] }
          else
            let filename := basicFilename d.id d.photographer img
            if filename ∈ files then
              { success := true, files := files, ledger := attribution, netTrace := [] }
            else
              let img' := if strBeginsWith "//" img then "https:" ++ img else img
              match env with
              | Except.error _ =>
                  { success := false, files := files, ledger := attribution,
                    netTrace := [img'] }
              | Except.ok _ =>
                  { success := true, files := files ++ [filename],
                    ledger := attribution ++ [{ photoId := d.id, filename := filename }],
                    netTrace := [img'] }

/-!
## API scraper (`FlickrAPIScraper.download_photo`)

Lines 117-171 of `flickr_api_scraper.py`: the download link is tried
first; if the final response URL contains `login` and a display-image URL
is available, that URL is fetched once instead; then `raise_for_status`.
-/

/-- The photo-info dictionary fields read by `download_photo`. -/
structure ApiInfo where
  id : String
  photographer : String
  imageUrl : Option String
  downloadUrl : Option String
deriving DecidableEq

/-- An HTTP response: its final URL (after redirects) and whether
`raise_for_status` passes. -/
structure Resp where
  url : String
  status : Bool
deriving DecidableEq

/-- Outcomes of the (at most two) `session.get` calls. -/
structure ApiEnv where
  fetch1 : Except Unit Resp
  fetch2 : Except Unit Resp
deriving DecidableEq

/-- Line 139: `photo_info.get('download_url') or photo_info['image_url']`. -/
def primaryUrl (pi : ApiInfo) (img : String) : String :=
  match pi.downloadUrl with
  | some d => if d ≠ "" then d else img
  | none => img

/-- Result of the API scraper's `download_photo`. -/
structure ApiOut where
  success : Bool
  files : List String
  ledger : List Rec
  netTrace : List String
deriving DecidableEq

/-- `FlickrAPIScraper.download_photo` (lines 117-171). -/
def apiDownloadPhoto (files : List String) (attribution : List Rec)
    (info : Option ApiInfo) (env : ApiEnv) : ApiOut :=
  match info with
  | none => { success := false, files := files, ledger := attribution, netTrace := [] }
  | some pi =>
      match pi.imageUrl with
      | none => { success := false, files := files, ledger := attribution, netTrace := [] }
      | some img =>
          if img = "" then
            { success := false, files := files, ledger := attribution, netTrace := [] }
          else
            let filename := apiFilename pi.id pi.photographer
            if filename ∈ files then
              { success := true, files := files, ledger := attribution, netTrace := [] }
            else
              let u1 := primaryUrl pi img
              match env.fetch1 with
              | Except.error _ =>
                  { success := false, files := files, ledger := attribution,
                    netTrace := [u1] }
              | Except.ok r1 =>
                  if strHas "login" r1.url && pyTruthy pi.imageUrl then
                    match env.fetch2 with
                    | Except.error _ =>
                        { success := false, files := files, ledger := attribution,
                          netTrace := [u1, img] }
                    | Except.ok r2 =>
                        if r2.status then
                          { success := true, files := files ++ [filename],
                            ledger := attribution
                              ++ [{ photoId := pi.id, filename := filename }],
                            netTrace := [u1, img] }
                        else
                          { success := false, files := files, ledger := attribution,
                            netTrace := [u1, img] }
                  else
                    if r1.status then
                      { success := true, files := files ++ [filename],
                        ledger := attribution
                          ++ [{ photoId := pi.id, filename := filename }],
                        netTrace := [u1] }
                    else
                      { success := false, files := files, ledger := attribution,
                        netTrace := [u1] }

end Scenic

/-!
# Helper lemmas
-/

namespace Scenic

lemma sizeTokenGo_hit (w : Bool) (c : Char) (rest : List Char) (hc : isLowerAZ c = true) :
    sizeTokenGo w ('g' :: 'p' :: 'j' :: '.' :: c :: '_' :: rest)
      = 'g' :: 'p' :: 'j' :: '.' :: 'b' :: '_' :: rest := by
  simp [sizeTokenGo, hc]

lemma sizeTokenGo_idem (w : Bool) (r : List Char) :
    sizeTokenGo w (sizeTokenGo w r) = sizeTokenGo w r := by
  rcases r with _ | ⟨g, _ | ⟨p, _ | ⟨j, _ | ⟨d, _ | ⟨c, _ | ⟨u, rest⟩⟩⟩⟩⟩⟩ <;>
    try rfl
  by_cases h1 : (g = 'g' ∧ p = 'p' ∧ j = 'j' ∧ d = '.' ∧ u = '_') ∧ isLowerAZ c
  · obtain ⟨⟨hg, hp, hj, hd, hu⟩, hc⟩ := h1
    subst hg; subst hp; subst hj; subst hd; subst hu
    rw [sizeTokenGo_hit w c rest hc, sizeTokenGo_hit w 'b' rest rfl]
  · by_cases h2 : w = true ∧ (g = 'g' ∧ p = 'n' ∧ j = 'p' ∧ d = '.' ∧ u = '_') ∧ isLowerAZ c
    · obtain ⟨hw, ⟨hg, hp, hj, hd, hu⟩, hc⟩ := h2
      subst hg; subst hp; subst hj; subst hd; subst hu; subst hw
      have e1 : sizeTokenGo true ('g' :: 'n' :: 'p' :: '.' :: c :: '_' :: rest)
          = 'g' :: 'n' :: 'p' :: '.' :: 'b' :: '_' :: rest := by
        simp [sizeTokenGo, hc]
      have e2 : sizeTokenGo true ('g' :: 'n' :: 'p' :: '.' :: 'b' :: '_' :: rest)
          = 'g' :: 'n' :: 'p' :: '.' :: 'b' :: '_' :: rest := by
        simp [sizeTokenGo]
      rw [e1, e2]
    · have e : sizeTokenGo w (g :: p :: j :: d :: c :: u :: rest)
          = g :: p :: j :: d :: c :: u :: rest := by
        simp only [sizeTokenGo]
        rw [if_neg h1, if_neg]
        intro hx
        exact h2 ⟨by simpa using hx.1, hx.2⟩
      rw [e, e]

lemma sizeUpgrade_append_jpg (pre : List Char) (c : Char) (hc : isLowerAZ c = true) :
    sizeUpgrade ⟨pre ++ ['_', c, '.', 'j', 'p', 'g']⟩ = ⟨pre ++ ['_', 'b', '.', 'j', 'p', 'g']⟩ := by
  have hrev : (pre ++ ['_', c, '.', 'j', 'p', 'g']).reverse
      = 'g' :: 'p' :: 'j' :: '.' :: c :: '_' :: pre.reverse := by
    simp
  simp only [sizeUpgrade, hrev, sizeTokenGo_hit _ _ _ hc]
  simp

lemma licLoop_eq_find (l : List (String × String)) (t : String) :
    licLoop l t = (l.map Prod.snd).find? (fun v => licMatches v t) := by
  induction l with
  | nil => rfl
  | cons kv rest ih =>
      obtain ⟨k, v⟩ := kv
      cases h : licMatches v t <;> simp [licLoop, h, List.find?_cons, ih]

lemma mem_firstOccurrence {x : String} : ∀ {l : List String}, x ∈ firstOccurrence l → x ∈ l := by
  intro l
  induction l using firstOccurrence.induct with
  | case1 => intro h; simp [firstOccurrence] at h
  | case2 a l ih =>
      intro h
      rw [firstOccurrence] at h
      rcases List.mem_cons.mp h with h | h
      · exact h ▸ List.mem_cons_self a l
      · exact List.mem_cons_of_mem a (List.mem_of_mem_filter (ih h))

lemma firstOccurrence_nodup : ∀ (l : List String), (firstOccurrence l).Nodup := by
  intro l
  induction l using firstOccurrence.induct with
  | case1 => simp [firstOccurrence]
  | case2 a l ih =>
      rw [firstOccurrence]
      refine List.nodup_cons.mpr ⟨?_, ih⟩
      intro hmem
      have := mem_firstOccurrence hmem
      simp at this

lemma dedupLoop_map_id :
    ∀ (ms : List (String × String)) (seen : List String),
      (dedupLoop seen ms).map Photo.id
        = firstOccurrence ((ms.map Prod.snd).filter (fun x => decide (x ∉ seen))) := by
  intro ms
  induction ms with
  | nil => intro seen; simp [dedupLoop, firstOccurrence]
  | cons m rest ih =>
      intro seen
      obtain ⟨u, i⟩ := m
      by_cases h : i ∈ seen
      · simp [dedupLoop, h, ih]
      · have hfe : ((rest.map Prod.snd).filter (fun x => decide (x ∉ seen))).filter
            (fun x => decide (x ≠ i))
            = (rest.map Prod.snd).filter (fun x => decide (x ∉ seen ++ [i])) := by
          rw [List.filter_filter]
          refine List.filter_congr ?_
          intro x _
          by_cases hx : x ∈ seen <;> by_cases hxi : x = i <;>
            simp [hx, hxi, List.mem_append]
        simp only [dedupLoop, if_neg h, List.map_cons, List.map_cons, ih (seen ++ [i])]
        simp only [List.map_cons, List.filter_cons]
        have : (decide (i ∉ seen)) = true := by simpa using h
        rw [this]
        simp only [if_true]
        rw [firstOccurrence, hfe]

lemma dedupPhotos_map_id (ms : List (String × String)) :
    (dedupPhotos ms).map Photo.id = firstOccurrence (ms.map Prod.snd) := by
  have h := dedupLoop_map_id ms []
  simpa [dedupPhotos] using h

lemma extractPhotos_take (ms : List (String × String)) (mp : Option Int) :
    ∃ n, extractPhotos ms mp = (dedupPhotos ms).take n := by
  match mp with
  | none => exact ⟨(dedupPhotos ms).length, by simp [extractPhotos]⟩
  | some n =>
      by_cases hn : n = 0
      · exact ⟨(dedupPhotos ms).length, by simp [extractPhotos, hn]⟩
      · by_cases hpos : 0 ≤ n
        · exact ⟨n.toNat, by simp [extractPhotos, hn, pySlice, hpos]⟩
        · exact ⟨(dedupPhotos ms).length - (-n).toNat, by simp [extractPhotos, hn, pySlice, hpos]⟩

/-- The claim-C2 ledger invariant: ids are unique, every record's file is on
disk, and every record's filename is the deterministic one for its id. -/
def LedgerInv (f : String → String) (files : List String) (ledger : List Rec) : Prop :=
  (ledger.map Rec.photoId).Nodup ∧
  ∀ r ∈ ledger, r.filename ∈ files ∧ r.filename = f r.photoId

lemma ledgerInv_append {f : String → String} {files : List String} {ledger : List Rec}
    (h : LedgerInv f files ledger) (i fn : String)
    (hfn : fn = f i) (hmem : fn ∈ files) (hid : i ∉ ledger.map Rec.photoId) :
    LedgerInv f files (ledger ++ [{ photoId := i, filename := fn }]) := by
  obtain ⟨hnd, hrec⟩ := h
  constructor
  · simp only [List.map_append, List.map_cons, List.map_nil]
    rw [List.nodup_append]
    refine ⟨hnd, List.nodup_singleton _, ?_⟩
    intro a ha hb
    have he : a = i := by simpa using hb
    exact hid (he ▸ ha)
  · intro r hr
    rcases List.mem_append.mp hr with hr | hr
    · exact hrec r hr
    · have : r = { photoId := i, filename := fn } := by simpa using hr
      subst this
      exact ⟨hmem, hfn⟩

lemma ledgerInv_files_mono {f : String → String} {files : List String} {ledger : List Rec}
    (h : LedgerInv f files ledger) (ext : List String) :
    LedgerInv f (files ++ ext) ledger :=
  ⟨h.1, fun r hr => ⟨List.mem_append_left _ (h.2 r hr).1, (h.2 r hr).2⟩⟩

lemma downloadPhoto_inv {f : String → String} {st : RunState} (p : Photo) (md : Meta)
    (env : ItemEnv)
    (h : LedgerInv f st.files st.ledger)
    (hf : enhancedFilename p.id p.username = f p.id)
    (hid : md.photoId = p.id) :
    LedgerInv f (downloadPhotoWithMetadata st p md env).st.files
      (downloadPhotoWithMetadata st p md env).st.ledger := by
  unfold downloadPhotoWithMetadata
  split
  · exact h
  · split
    · exact h
    · simp only []
      split_ifs with hmem hin
      · exact h
      · exact ledgerInv_append h md.photoId (enhancedFilename p.id p.username)
          (by rw [hid, hf]) hmem (by simpa [ledgerIds] using hin)
      · split
        · exact h
        · have hin : md.photoId ∉ st.ledger.map Rec.photoId := by
            intro hinmap
            obtain ⟨r, hr, hrid⟩ := List.mem_map.mp hinmap
            have h2 := h.2 r hr
            have he : r.filename = enhancedFilename p.id p.username := by
              rw [h2.2, hrid, hid, hf]
            exact hmem (he ▸ h2.1)
          exact ledgerInv_append
            (ledgerInv_files_mono h [enhancedFilename p.id p.username])
            md.photoId (enhancedFilename p.id p.username)
            (by rw [hid, hf])
            (List.mem_append_right _ (List.mem_singleton.mpr rfl))
            hin

lemma processItem_inv {f : String → String} {st : RunState} {it : Item}
    (h : LedgerInv f st.files st.ledger)
    (hf : enhancedFilename it.photo.id it.photo.username = f it.photo.id) :
    LedgerInv f (processItem st it).files (processItem st it).ledger := by
  unfold processItem
  split
  · exact h
  next md hm =>
    have hid : md.photoId = it.photo.id := by
      cases henv : it.env.meta with
      | error e => rw [henv] at hm; simp [getPhotoMetadata] at hm
      | ok page =>
          rw [henv] at hm
          simp only [getPhotoMetadata, Option.some.injEq] at hm
          rw [← hm]
    exact downloadPhoto_inv it.photo md it.env h hf hid

lemma runItems_inv {f : String → String} :
    ∀ (items : List Item) (st : RunState),
      LedgerInv f st.files st.ledger →
      (∀ it ∈ items, enhancedFilename it.photo.id it.photo.username = f it.photo.id) →
      LedgerInv f (runItems items st).files (runItems items st).ledger := by
  intro items
  induction items with
  | nil => exact fun st h _ => h
  | cons it rest ih =>
      intro st h hall
      have h1 := processItem_inv h (hall it (List.mem_cons_self _ _))
      exact ih _ h1 (fun x hx => hall x (List.mem_cons_of_mem _ hx))

lemma runSeq_inv {f : String → String} :
    ∀ (runs : List (List Item)) (files : List String) (ledger : List Rec),
      LedgerInv f files ledger →
      (∀ it ∈ runs.flatten, enhancedFilename it.photo.id it.photo.username = f it.photo.id) →
      LedgerInv f (runSeq runs files ledger).1 (runSeq runs files ledger).2 := by
  intro runs
  induction runs with
  | nil => exact fun _ _ h _ => h
  | cons r rest ih =>
      intro files ledger h hall
      have h1 := runItems_inv r { files := files, ledger := ledger, failed := [] } h
        (fun it hx => hall it (List.mem_flatten.mpr ⟨r, List.mem_cons_self _ _, hx⟩))
      exact ih _ _ h1
        (fun it hx => hall it (by
          obtain ⟨l, hl, hil⟩ := List.mem_flatten.mp hx
          exact List.mem_flatten.mpr ⟨l, List.mem_cons_of_mem _ hl, hil⟩))

end Scenic

/-!
# Concrete sample inputs used by witnesses and counterexamples
-/

namespace Scenic

/-- A metadata page whose title `h1` is present. -/
def exMetaPage : MetaPage := { h1Title := some "A scenic view", ogTitle := none }

/-- A sizes page with one usable download link. -/
def exSizesPage : SizesPage :=
  { links := [{ href := "https://live.staticflickr.com/1/dl.jpg", text := "Download" }],
    allsizesImg := none }

/-- An environment where every fetch succeeds. -/
def exEnvOk : ItemEnv :=
  { meta := Except.ok exMetaPage, sizes := Except.ok exSizesPage, image := Except.ok 5 }

/-- The same photo id offered under the handle `alice`. -/
def exPhotoAlice : Photo :=
  { id := "12345678", username := "alice",
    url := "https://www.flickr.com/photos/alice/12345678" }

/-- The same photo id offered under the handle `bob`. -/
def exPhotoBob : Photo :=
  { id := "12345678", username := "bob",
    url := "https://www.flickr.com/photos/bob/12345678" }

/-- Two runs over the same output directory, the id reappearing under a
different owner handle in the second run. -/
def exRunsDup : List (List Item) :=
  [[{ photo := exPhotoAlice, env := exEnvOk }],
   [{ photo := exPhotoBob, env := exEnvOk }]]

/-- Two runs presenting the identical item both times. -/
def exRunsStable : List (List Item) :=
  [[{ photo := exPhotoAlice, env := exEnvOk }],
   [{ photo := exPhotoAlice, env := exEnvOk }]]

/-- The stable filename assignment for `exRunsStable`. -/
def exStableName (i : String) : String := enhancedFilename i "alice"

/-- A state in which `exPhotoAlice`'s file is already on disk. -/
def exStHasFile : RunState :=
  { files := ["flickr_12345678_alice.jpg"], ledger := [], failed := [] }

/-- Resolved metadata for `exPhotoAlice`. -/
def exMetaAlice : Meta :=
  { photoId := "12345678", username := "alice", title := "A scenic view" }

/-- An environment whose sizes-page fetch raises. -/
def exEnvSizesFail : ItemEnv :=
  { meta := Except.ok exMetaPage, sizes := Except.error (), image := Except.ok 0 }

/-- An environment whose metadata-page fetch raises. -/
def exEnvMetaFail : ItemEnv :=
  { meta := Except.error (), sizes := Except.error (), image := Except.error () }

/-- API photo info with both a download link and a display-image URL. -/
def exApiInfo : ApiInfo :=
  { id := "22222222", photographer := "carol",
    imageUrl := some "https://live.staticflickr.com/1/22222222_aa_b.jpg",
    downloadUrl := some "https://www.flickr.com/photo_download.gne?id=22222222" }

/-- Primary fetch lands on a login page; the retry raises. -/
def exApiEnvRetryFail : ApiEnv :=
  { fetch1 := Except.ok { url := "https://www.flickr.com/signin/login", status := true },
    fetch2 := Except.error () }

/-- Primary fetch lands on a login page; the retry succeeds. -/
def exApiEnvRetryOk : ApiEnv :=
  { fetch1 := Except.ok { url := "https://www.flickr.com/signin/login", status := true },
    fetch2 := Except.ok { url := "https://live.staticflickr.com/1/22222222_aa_b.jpg",
                          status := true } }

/-- Photo details whose photographer name contains a `.` character. -/
def exDetailsDot : Details :=
  { id := "123", url := "https://www.flickr.com/photos/ab/123",
    title := "t", photographer := "a.b", description := none,
    license := "CC BY 2.0", downloadUrl := none,
    imageUrl := some "https://live.staticflickr.com/1/123_ff_b.jpg" }

/-!
# Claims
-/

/-- C1: for every listing input document, the Candidate Lister's output
contains no two references with the same id, and the references appear in
first-occurrence order of the ids in the source document (the output id
sequence is a front segment of the spec-side `firstOccurrence` sequence,
and equals it when no maximum-count limit is set). -/
theorem candidate_lister_first_occurrence (ms : List (String × String)) (mp : Option Int) :
    ((extractPhotos ms mp).map Photo.id).Nodup ∧
    (extractPhotos ms none).map Photo.id = firstOccurrence (ms.map Prod.snd) ∧
    ∃ n, (extractPhotos ms mp).map Photo.id = (firstOccurrence (ms.map Prod.snd)).take n := by
  obtain ⟨n, hn⟩ := extractPhotos_take ms mp
  have hfull := dedupPhotos_map_id ms
  refine ⟨?_, ?_, ⟨n, ?_⟩⟩
  · rw [hn, List.map_take, hfull]
    exact (List.take_sublist _ _).nodup (firstOccurrence_nodup _)
  · rw [show extractPhotos ms none = dedupPhotos ms from rfl, hfull]
  · rw [hn, List.map_take, hfull]

/-- C2 counterexample: two runs over the same (initially empty) output
directory, the same photo id appearing under the owner handle `alice` in
the first run and `bob` in the second; the persisted ledger ends with the
id `12345678` recorded twice, so the claimed cross-run uniqueness fails. -/
theorem ledger_duplicate_id_across_runs :
    (runSeq exRunsDup [] []).2.map Rec.photoId = ["12345678", "12345678"] ∧
    ¬ ((runSeq exRunsDup [] []).2.map Rec.photoId).Nodup := by
  constructor
  · decide
  · intro h
    rw [show (runSeq exRunsDup [] []).2.map Rec.photoId = ["12345678", "12345678"]
        from by decide] at h
    simp at h

/-- C2 amended: across any sequence of runs starting from an empty output
directory, provided every occurrence of an id (in any run) carries an
owner handle giving the same deterministic filename `f id`, no id appears
more than once in the persisted ledger. (Completion is detected via the
photo file's existence; with a stable filename per id this implies the
claimed load-then-skip behaviour, but an id reappearing under a different
handle defeats it, as the counterexample shows.) -/
theorem ledger_ids_nodup_across_runs (runs : List (List Item)) (f : String → String)
    (hf : ∀ it ∈ runs.flatten, enhancedFilename it.photo.id it.photo.username = f it.photo.id) :
    ((runSeq runs [] []).2.map Rec.photoId).Nodup :=
  (runSeq_inv runs [] [] ⟨List.nodup_nil, by simp⟩ hf).1

/-- C2 witness: the amended theorem applied to two concrete runs that
present the identical item twice. -/
theorem ledger_ids_nodup_across_runs_witness :
    (∀ it ∈ exRunsStable.flatten,
      enhancedFilename it.photo.id it.photo.username = exStableName it.photo.id) ∧
    ((runSeq exRunsStable [] []).2.map Rec.photoId).Nodup :=
  ⟨by decide, ledger_ids_nodup_across_runs exRunsStable exStableName (by decide)⟩

/-- C3 counterexample: a license text that contains `CC BY-SA 4.0` but also
contains the earlier table entry `CC BY 2.0`; normalization returns the
shorter attribution-only label, not the share-alike 4.0 label. -/
theorem license_normalization_not_longest :
    strHas "CC BY-SA 4.0" "CC BY 2.0 and CC BY-SA 4.0" = true ∧
    normalizeLicense "CC BY 2.0 and CC BY-SA 4.0" = some "CC BY 2.0" ∧
    ("CC BY 2.0" : String) ≠ "CC BY-SA 4.0" := by decide

/-- C3 amended: normalization selects the first canonical label in the
fixed table order (`CC BY 2.0`, `CC BY-SA 2.0`, `CC0 1.0`,
`Public Domain Mark`, `CC BY 4.0`, `CC BY-SA 4.0`) whose label occurs in
the text directly or after removing spaces from both — not the longest
such label; text in which only the share-alike 4.0 label occurs (such as
the exact text `CC BY-SA 4.0`) still normalizes to the share-alike 4.0
label. -/
theorem license_normalization_first_match :
    (∀ text, normalizeLicense text
        = (licenses.map Prod.snd).find? (fun v => licMatches v text)) ∧
    normalizeLicense "CC BY-SA 4.0" = some "CC BY-SA 4.0" :=
  ⟨fun t => licLoop_eq_find licenses t, by decide⟩

/-- C4 counterexample: in the enhanced scraper an item whose deterministic
filename already exists on disk still fetches the sizes page first; with
that fetch raising, the item is reported failed and a network call was
made — contradicting "Skipped with no network fetch". -/
theorem existing_file_still_fetches_network :
    enhancedFilename exPhotoAlice.id exPhotoAlice.username ∈ exStHasFile.files ∧
    (downloadPhotoWithMetadata exStHasFile exPhotoAlice exMetaAlice exEnvSizesFail).success
      = false ∧
    (downloadPhotoWithMetadata exStHasFile exPhotoAlice exMetaAlice exEnvSizesFail).netTrace
      = [sizesUrl exPhotoAlice] := by decide

/-- C4 amended: an item whose deterministic filename already names an
existing file is reported as successfully handled with no image-byte
fetch — in the enhanced scraper only after the sizes page has been
fetched and yielded an asset URL (so its network trace is exactly the
sizes-page fetch), while the basic scraper's download step checks the
file before any network call and performs none at all. -/
theorem existing_file_skips_byte_fetch :
    (∀ (st : RunState) (p : Photo) (md : Meta) (env : ItemEnv) (page : SizesPage) (u : String),
      env.sizes = Except.ok page → locateAssetUrl page = some u →
      enhancedFilename p.id p.username ∈ st.files →
      (downloadPhotoWithMetadata st p md env).success = true ∧
      (downloadPhotoWithMetadata st p md env).netTrace = [sizesUrl p] ∧
      (downloadPhotoWithMetadata st p md env).st.files = st.files) ∧
    (∀ (files : List String) (attribution : List Rec) (d : Details)
        (env : Except Unit Nat) (img : String),
      d.imageUrl = some img → img ≠ "" →
      basicFilename d.id d.photographer img ∈ files →
      basicDownloadPhoto files attribution (some d) env =
        { success := true, files := files, ledger := attribution, netTrace := [] }) := by
  constructor
  · intro st p md env page u hs hloc hmem
    simp only [downloadPhotoWithMetadata, hs, hloc]
    rw [if_pos hmem]
    by_cases hid : md.photoId ∈ ledgerIds st.ledger
    · rw [if_pos hid]; exact ⟨rfl, rfl, rfl⟩
    · rw [if_neg hid]; exact ⟨rfl, rfl, rfl⟩
  · intro files attribution d env img himg hne hmem
    simp only [basicDownloadPhoto, himg]
    rw [if_neg hne, if_pos hmem]

/-- C4 witness: the amended theorem applied to concrete items whose files
already exist, in both scrapers. -/
theorem existing_file_skips_byte_fetch_witness :
    ((downloadPhotoWithMetadata exStHasFile exPhotoAlice exMetaAlice exEnvOk).success = true ∧
     (downloadPhotoWithMetadata exStHasFile exPhotoAlice exMetaAlice exEnvOk).netTrace
        = [sizesUrl exPhotoAlice] ∧
     (downloadPhotoWithMetadata exStHasFile exPhotoAlice exMetaAlice exEnvOk).st.files
        = exStHasFile.files) ∧
    basicDownloadPhoto ["flickr_123_a.b.jpg"] [] (some exDetailsDot) (Except.error ()) =
      { success := true, files := ["flickr_123_a.b.jpg"], ledger := [], netTrace := [] } :=
  ⟨existing_file_skips_byte_fetch.1 exStHasFile exPhotoAlice exMetaAlice exEnvOk exSizesPage
      "https://live.staticflickr.com/1/dl.jpg" rfl (by decide) (by decide),
   existing_file_skips_byte_fetch.2 ["flickr_123_a.b.jpg"] [] exDetailsDot (Except.error ())
      "https://live.staticflickr.com/1/123_ff_b.jpg" rfl (by decide) (by decide)⟩

/-- C5: an image URL whose trailing size token is `_x.jpg` with `x` a
single lowercase letter is rewritten so that the token becomes `_b.jpg`,
under both the `jpg|png` rewrite and the `jpg`-only rewrite. -/
theorem size_token_upgraded_to_largest (pre : List Char) (c : Char)
    (hc : isLowerAZ c = true) :
    sizeUpgrade ⟨pre ++ ['_', c, '.', 'j', 'p', 'g']⟩ = ⟨pre ++ ['_', 'b', '.', 'j', 'p', 'g']⟩ ∧
    sizeUpgradeJpg ⟨pre ++ ['_', c, '.', 'j', 'p', 'g']⟩
      = ⟨pre ++ ['_', 'b', '.', 'j', 'p', 'g']⟩ := by
  constructor
  · exact sizeUpgrade_append_jpg pre c hc
  · have hrev : (pre ++ ['_', c, '.', 'j', 'p', 'g']).reverse
        = 'g' :: 'p' :: 'j' :: '.' :: c :: '_' :: pre.reverse := by
      simp
    simp only [sizeUpgradeJpg, hrev, sizeTokenGo_hit _ _ _ hc]
    simp

/-- C5 witness: the claim's own example `.../1234_abcdef_n.jpg`. -/
theorem size_token_upgraded_to_largest_witness :
    isLowerAZ 'n' = true ∧
    sizeUpgrade ".../1234_abcdef_n.jpg" = ".../1234_abcdef_b.jpg" := by
  refine ⟨rfl, ?_⟩
  exact (size_token_upgraded_to_largest (".../1234_abcdef".data) 'n' rfl).1

/-- C6 counterexample: a primary fetch whose final URL contains the login
marker, with an alternate display-image URL available, whose single retry
raises — the item ends failed, not as a successful persisted download. -/
theorem authwall_retry_not_always_persisted :
    strHas "login" "https://www.flickr.com/signin/login" = true ∧
    exApiInfo.imageUrl ≠ none ∧
    (apiDownloadPhoto [] [] (some exApiInfo) exApiEnvRetryFail).success = false ∧
    (apiDownloadPhoto [] [] (some exApiInfo) exApiEnvRetryFail).netTrace =
      ["https://www.flickr.com/photo_download.gne?id=22222222",
       "https://live.staticflickr.com/1/22222222_aa_b.jpg"] := by decide

/-- C6 amended: on a login-marked primary response the executor retries
exactly once against the display-image URL (its network trace is exactly
the primary URL then the image URL); the item ends as a successful
persisted download only if that retry returns a success status, and is
failed if the retry raises or has a failure status. An item with no
display-image URL is rejected before any fetch. -/
theorem authwall_retries_alternate_once :
    (∀ (files : List String) (attribution : List Rec) (pi : ApiInfo) (env : ApiEnv)
        (img : String) (r1 : Resp),
      pi.imageUrl = some img → img ≠ "" →
      apiFilename pi.id pi.photographer ∉ files →
      env.fetch1 = Except.ok r1 → strHas "login" r1.url = true →
      (apiDownloadPhoto files attribution (some pi) env).netTrace
          = [primaryUrl pi img, img] ∧
      (∀ r2 : Resp, env.fetch2 = Except.ok r2 → r2.status = true →
        apiDownloadPhoto files attribution (some pi) env =
          { success := true,
            files := files ++ [apiFilename pi.id pi.photographer],
            ledger := attribution
              ++ [{ photoId := pi.id, filename := apiFilename pi.id pi.photographer }],
            netTrace := [primaryUrl pi img, img] }) ∧
      (env.fetch2 = Except.error () →
        (apiDownloadPhoto files attribution (some pi) env).success = false) ∧
      (∀ r2 : Resp, env.fetch2 = Except.ok r2 → r2.status = false →
        (apiDownloadPhoto files attribution (some pi) env).success = false)) ∧
    (∀ (files : List String) (attribution : List Rec) (pi : ApiInfo) (env : ApiEnv),
      pi.imageUrl = none →
      apiDownloadPhoto files attribution (some pi) env =
        { success := false, files := files, ledger := attribution, netTrace := [] }) := by
  constructor
  · intro files attribution pi env img r1 himg hne hmem h1 hlogin
    have htr : pyTruthy (some img) = true := by simp [pyTruthy, hne]
    simp only [apiDownloadPhoto, himg, h1]
    rw [if_neg hne, if_neg hmem]
    rw [hlogin, htr]
    simp only [Bool.and_self, if_true]
    refine ⟨?_, ?_, ?_, ?_⟩
    · cases h2 : env.fetch2 with
      | error e => rfl
      | ok r2 => cases hr2 : r2.status <;> simp [hr2]
    · intro r2 h2 hst
      rw [h2]
      simp [hst]
    · intro h2; rw [h2]
    · intro r2 h2 hst
      rw [h2]
      simp [hst]
  · intro files attribution pi env himg
    simp [apiDownloadPhoto, himg]

/-- C6 witness: the amended theorem applied to a concrete login-marked
primary response whose retry succeeds. -/
theorem authwall_retries_alternate_once_witness :
    (apiDownloadPhoto [] [] (some exApiInfo) exApiEnvRetryOk).netTrace =
      [primaryUrl exApiInfo "https://live.staticflickr.com/1/22222222_aa_b.jpg",
       "https://live.staticflickr.com/1/22222222_aa_b.jpg"] ∧
    apiDownloadPhoto [] [] (some exApiInfo) exApiEnvRetryOk =
      { success := true,
        files := [apiFilename exApiInfo.id exApiInfo.photographer],
        ledger := [{ photoId := exApiInfo.id,
                     filename := apiFilename exApiInfo.id exApiInfo.photographer }],
        netTrace := [primaryUrl exApiInfo "https://live.staticflickr.com/1/22222222_aa_b.jpg",
                     "https://live.staticflickr.com/1/22222222_aa_b.jpg"] } := by
  have h := authwall_retries_alternate_once.1 [] [] exApiInfo exApiEnvRetryOk
    "https://live.staticflickr.com/1/22222222_aa_b.jpg"
    { url := "https://www.flickr.com/signin/login", status := true }
    rfl (by decide) (by decide) rfl (by decide)
  refine ⟨h.1, ?_⟩
  have h2 := h.2.1 { url := "https://live.staticflickr.com/1/22222222_aa_b.jpg",
                     status := true } rfl rfl
  simpa using h2

/-- C7: the Metadata Resolver returns the sentinel `none` (never a raised
error) on total page-fetch failure, and the orchestrator appends the
reference's id to the failure list and continues the run with the
remaining candidates. -/
theorem resolver_error_returns_sentinel (p : Photo) (pre suf : List Item) (it : Item)
    (st : RunState) (h : it.env.meta = Except.error ()) :
    getPhotoMetadata p (Except.error ()) = none ∧
    runItems (pre ++ it :: suf) st =
      runItems suf
        { runItems pre st with failed := (runItems pre st).failed ++ [it.photo.id] } := by
  constructor
  · rfl
  · simp [runItems, List.foldl_append, processItem, getPhotoMetadata, h]

/-- C7 witness: the theorem applied to a concrete item whose metadata
fetch raises. -/
theorem resolver_error_returns_sentinel_witness :
    getPhotoMetadata exPhotoBob (Except.error ()) = none ∧
    runItems ([] ++ { photo := exPhotoBob, env := exEnvMetaFail } :: []) exStHasFile =
      runItems []
        { runItems [] exStHasFile with
            failed := (runItems [] exStHasFile).failed ++ [exPhotoBob.id] } :=
  resolver_error_returns_sentinel exPhotoBob [] []
    { photo := exPhotoBob, env := exEnvMetaFail } exStHasFile rfl

/-- C8 counterexample: the basic scraper writes `flickr_123_a.b.jpg` for a
photographer named `a.b` — the `.` survives, so the filename is not of the
claimed fully-sanitized form. -/
theorem basic_filename_not_fully_sanitized :
    (basicDownloadPhoto [] [] (some exDetailsDot) (Except.ok 7)).files
      = ["flickr_123_a.b.jpg"] ∧
    ("flickr_123_a.b.jpg" : String)
      ≠ "flickr_" ++ "123" ++ "_" ++ sanitizeHandle "a.b" ++ ".jpg" := by decide

/-- C8 amended: the enhanced and API scrapers build
`flickr_<id>_<sanitizedOwner>.jpg` where sanitization replaces every
character outside `[A-Za-z0-9_-]` with `_`; the basic scraper instead uses
the photographer display name with only spaces replaced by underscores and
an extension chosen by a `.png` substring test. -/
theorem filename_sanitization_by_collector :
    (∀ photoId u : String,
      (enhancedFilename photoId u).data =
        "flickr_".data ++ photoId.data ++ '_' ::
          (u.data.map (fun c => if isWordChar c then c else '_')) ++ ".jpg".data) ∧
    (∀ photoId u : String, apiFilename photoId u = enhancedFilename photoId u) ∧
    (∀ photoId ph img : String,
      basicFilename photoId ph img =
        "flickr_" ++ photoId ++ "_" ++ replaceChar ' ' '_' ph ++ "." ++ basicExt img) := by
  refine ⟨?_, fun _ _ => rfl, fun _ _ _ => rfl⟩
  intro photoId u
  simp [enhancedFilename, sanitizeHandle, String.data_append]

/-- C9: both size-upgrade rewrites are idempotent, and an already-upgraded
URL ending in `_b.jpg` is left unchanged. -/
theorem size_upgrade_idempotent :
    (∀ url : String, sizeUpgrade (sizeUpgrade url) = sizeUpgrade url) ∧
    (∀ url : String, sizeUpgradeJpg (sizeUpgradeJpg url) = sizeUpgradeJpg url) ∧
    sizeUpgrade "https://live.staticflickr.com/1/1234_abcdef_b.jpg"
      = "https://live.staticflickr.com/1/1234_abcdef_b.jpg" := by
  refine ⟨?_, ?_, by decide⟩
  · intro url
    simp [sizeUpgrade, List.reverse_reverse, sizeTokenGo_idem]
  · intro url
    simp [sizeUpgradeJpg, List.reverse_reverse, sizeTokenGo_idem]

/-- C10: the maximum-item-count limit truncates only when truthy — with the
limit `None` the full deduplicated candidate list is returned, with the
limit `0` the full list is also returned, and with a non-zero limit the
Python slice `photos[:n]` is applied. -/
theorem max_photos_falsy_means_no_limit :
    (∀ ms : List (String × String), extractPhotos ms none = dedupPhotos ms) ∧
    (∀ ms : List (String × String), extractPhotos ms (some 0) = dedupPhotos ms) ∧
    (∀ (ms : List (String × String)) (n : Int), n ≠ 0 →
      extractPhotos ms (some n) = pySlice (dedupPhotos ms) n) := by
  refine ⟨fun ms => rfl, fun ms => by simp [extractPhotos], fun ms n hn => by
    simp [extractPhotos, hn]⟩

/-- C10 witness: concrete two-candidate document with limits `0` and `1`. -/
theorem max_photos_falsy_means_no_limit_witness :
    extractPhotos [("u", "11111111"), ("v", "22222222")] (some 0)
      = dedupPhotos [("u", "11111111"), ("v", "22222222")] ∧
    (1 : Int) ≠ 0 ∧
    extractPhotos [("u", "11111111"), ("v", "22222222")] (some 1)
      = pySlice (dedupPhotos [("u", "11111111"), ("v", "22222222")]) 1 :=
  ⟨max_photos_falsy_means_no_limit.2.1 _, by decide,
   max_photos_falsy_means_no_limit.2.2 _ 1 (by decide)⟩

end Scenic
